import Mathlib

/-!
# Node-feature-discovery operator: reconcile loop, manifest dispatch, delete helpers

A shallow embedding of `controllers/nodefeaturediscovery_controller.go` and
`controllers/nodefeaturediscovery_resources.go`.

* A Go `error` is `Option K8sError` (`none` is `nil`).
* Calls that leave the process (the API client, the status writer, the
  per-kind condition getters) are fields of an environment record; the
  sequence of calls a function makes is returned as a list of effects.
* A Go run-time panic is an explicit outcome.
-/

namespace Controllers

/-! ## Errors, results, conditions -/

/-- A non-nil Go `error`: its `Error()` text and whether
`k8serrors.IsNotFound` holds of it. -/
structure K8sError where
  msg : String
  notFound : Bool
  deriving DecidableEq, Repr

/-- The function `k8serrors.IsNotFound`; it is false on a nil error. -/
def IsNotFound : Option K8sError → Bool
  | none => false
  | some e => e.notFound

/-- The type `ctrl.Result` / `reconcile.Result`. -/
structure Result where
  Requeue : Bool := false
  RequeueAfter : Nat := 0
  deriving DecidableEq, Repr

/-- The type `Status` of the per-kind snapshot read through `rstatus`. -/
structure Status where
  isAvailable : Bool := false
  isProgressing : Bool := false
  isDegraded : Bool := false
  deriving DecidableEq, Repr

/-- The three top-level conditions. -/
inductive ConditionType where
  | Available
  | Progressing
  | Degraded
  deriving DecidableEq, Repr

/-- The value handed to `updateStatus`: the top-level condition with its
reason and message. -/
structure Conditions where
  type : ConditionType
  reason : String
  message : String
  deriving DecidableEq, Repr

/-- Modelled from the spec: `getAvailableConditions` is not part of the
available source; it builds the Available top-level condition. -/
def getAvailableConditions : Conditions :=
  { type := .Available, reason := "", message := "" }

/-- Modelled from the spec: `getDegradedConditions` is not part of the
available source; it builds the Degraded top-level condition from a reason and
a message (the two string arguments at its call site in `Reconcile`). -/
def getDegradedConditions (reason message : String) : Conditions :=
  { type := .Degraded, reason := reason, message := message }

/-- Modelled from the spec: `getProgressingConditions` is not part of the
available source; it builds the Progressing top-level condition. -/
def getProgressingConditions (reason message : String) : Conditions :=
  { type := .Progressing, reason := reason, message := message }

/-- The nine kinds whose conditions `Reconcile` reads, in source order. -/
inductive Kind where
  | ServiceAccount
  | Role
  | ClusterRole
  | ClusterRoleBinding
  | RoleBinding
  | Service
  | WorkerConfig
  | WorkerDaemonSet
  | MasterDaemonSet
  deriving DecidableEq, Repr

/-- The order in which `Reconcile` reads the nine kinds. -/
def kindOrder : List Kind :=
  [.ServiceAccount, .Role, .ClusterRole, .ClusterRoleBinding, .RoleBinding,
   .Service, .WorkerConfig, .WorkerDaemonSet, .MasterDaemonSet]

/-! ## The apply state machine -/

/-- The package-level `nfd` value as far as `applyComponents` reads it: the
ordered components, each with the fault its apply meets (`none`: it applies),
and the cursor `idx`. -/
structure NFD where
  components : List (Option K8sError)
  idx : Nat
  deriving DecidableEq, Repr

/-- Modelled from the spec: `nfd.init` is not part of the available source;
every pass restarts from the first component. -/
def NFD.init (components : List (Option K8sError)) : NFD :=
  { components := components, idx := 0 }

/-- Modelled from the spec: `nfd.step` is not part of the available source;
it applies the component at the cursor and then increments the cursor; on a
failure it returns the error and leaves the cursor where it is. In the
terminal state there is no component left and no transition, so the cursor
stays (this keeps `idx ≤ len(components)`). -/
def NFD.step (n : NFD) : NFD × Option K8sError :=
  match n.components.get? n.idx with
  | none => (n, none)
  | some (some e) => (n, some e)
  | some none => ({ n with idx := n.idx + 1 }, none)

/-- Modelled from the spec: `nfd.last` is not part of the available source;
it reports true iff the cursor equals the number of components. -/
def NFD.last (n : NFD) : Bool :=
  n.idx == n.components.length

/-- What one run of `applyComponents` leaves behind: the machine, the number
of `step` calls made, the returned `*reconcile.Result` (`none` would be a nil
pointer) and the returned error. -/
structure ApplyRun where
  nfd : NFD
  steps : Nat
  result : Option Result
  err : Option K8sError
  deriving DecidableEq, Repr

/-- The `for` loop of `applyComponents`, with `fuel` bounding the number of
iterations; `none` means the bound was reached before the loop ended. -/
def applyLoop : Nat → NFD → Nat → Option ApplyRun
  | 0, _, _ => none
  | fuel + 1, n, calls =>
    match n.step with
    | (n1, some e) =>
      some { nfd := n1, steps := calls + 1, result := some {}, err := some e }
    | (n1, none) =>
      if n1.last then
        some { nfd := n1, steps := calls + 1, result := some {}, err := none }
      else applyLoop fuel n1 (calls + 1)

/-- The function `applyComponents` on the machine `n`: the loop is given one
iteration per remaining component and one more. -/
def applyComponents (n : NFD) : Option ApplyRun :=
  applyLoop (n.components.length + 1 - n.idx) n 0

/-! ## Reconcile -/

/-- Calls made by `Reconcile` that touch the outside world. -/
inductive Effect where
  | get
  | registerInstance
  | init
  | applyComponents (steps : Nat)
  | metricsDegraded
  | evaluate (k : Kind)
  | updateStatus (c : Conditions)
  deriving DecidableEq, Repr

/-- How a call of `Reconcile` ends. -/
inductive Outcome where
  | returned (res : Result) (err : Option K8sError)
  | panicked
  | diverged
  deriving DecidableEq, Repr

/-- Everything outside `Reconcile` that one pass depends on.

* `getErr`: the error of `r.Get` for the instance.
* `specInstance`: `instance.Spec.Instance`.
* `components`: the components `nfd.init` installs.
* `conditions k`: what the condition getter of kind `k` returns.
* `updateStatus n c`: the error of the call of `r.updateStatus` with `c` that
  is preceded by `n` earlier calls in this pass.
* `failedCondition k`: the `condition...` string constant `Reconcile` passes
  for kind `k` when the getter returns an error without `isDegraded`
  (`conditionFailedGettingNFDServiceAccount`, `conditionNFDRoleDegraded`,
  `conditionNFDClusterRoleDegraded`, `conditionNFDClusterRoleBindingDegraded`,
  `conditionFailedGettingNFDRoleBinding`, `conditionFailedGettingNFDService`,
  `conditionFailedGettingNFDWorkerConfig`,
  `conditionFailedGettingNFDWorkerDaemonSet`,
  `conditionFailedGettingNFDMasterDaemonSet`).
* `degradedReturn`, `progressingReturn`: what `updateDegradedCondition` and
  `updateProgressingCondition` hand back, given the error of their status
  write. -/
structure Env where
  getErr : Option K8sError
  specInstance : String
  components : List (Option K8sError)
  conditions : Kind → Status × Option K8sError
  updateStatus : Nat → Conditions → Option K8sError
  failedCondition : Kind → String
  degradedReturn : Option K8sError → Result × Option K8sError
  progressingReturn : Option K8sError → Result × Option K8sError

/-- A finished or unfinished run: the effects so far and how it ended. -/
structure Run where
  trace : List Effect
  outcome : Outcome
  deriving DecidableEq, Repr

/-- Modelled from the spec: `updateDegradedCondition` is not part of the
available source; it persists the Degraded condition built from its arguments
(the condition string and the text of the error). The pair it hands back to
the host is a parameter of the environment. -/
def updateDegradedCondition (env : Env) (tr : List Effect) (writes : Nat)
    (condition : String) (conditionErr : K8sError) : Run :=
  let conditions := getDegradedConditions condition conditionErr.msg
  let ret := env.degradedReturn (env.updateStatus writes conditions)
  { trace := tr ++ [.updateStatus conditions], outcome := .returned ret.1 ret.2 }

/-- Modelled from the spec: `updateProgressingCondition` is not part of the
available source; it persists the Progressing condition built from its
arguments. The pair it hands back to the host is a parameter of the
environment. -/
def updateProgressingCondition (env : Env) (tr : List Effect) (writes : Nat)
    (condition : String) (conditionErr : K8sError) : Run :=
  let conditions := getProgressingConditions condition conditionErr.msg
  let ret := env.progressingReturn (env.updateStatus writes conditions)
  { trace := tr ++ [.updateStatus conditions], outcome := .returned ret.1 ret.2 }

/-- The block `Reconcile` runs for each of the first seven kinds:
`if rstatus.isDegraded == true` it calls `updateDegradedCondition` with
`err.Error()` (a nil `err` panics there), `else if err != nil` it calls it with
the kind's constant, and otherwise it goes on with `next`. -/
def checkDegraded (env : Env) (k : Kind) (tr : List Effect)
    (next : List Effect → Run) : Run :=
  let (rstatus, err) := env.conditions k
  let tr := tr ++ [.evaluate k]
  if rstatus.isDegraded == true then
    match err with
    | none => { trace := tr, outcome := .panicked }
    | some e => updateDegradedCondition env tr 0 e.msg e
  else
    match err with
    | some e => updateDegradedCondition env tr 0 (env.failedCondition k) e
    | none => next tr

/-- The block `Reconcile` runs for the two daemon sets: `isProgressing` is
tested first, then `isDegraded`, then `err != nil`. -/
def checkDaemonSet (env : Env) (k : Kind) (tr : List Effect)
    (next : List Effect → Run) : Run :=
  let (rstatus, err) := env.conditions k
  let tr := tr ++ [.evaluate k]
  if rstatus.isProgressing == true then
    match err with
    | none => { trace := tr, outcome := .panicked }
    | some e => updateProgressingCondition env tr 0 e.msg e
  else if rstatus.isDegraded == true then
    match err with
    | none => { trace := tr, outcome := .panicked }
    | some e => updateDegradedCondition env tr 0 e.msg e
  else
    match err with
    | some e => updateDegradedCondition env tr 0 (env.failedCondition k) e
    | none => next tr

/-- The tail of `Reconcile` once all nine kinds went through: the Available
conditions are written twice (the first error is dropped), and `result`, the
pointer `applyComponents` returned, decides what is handed back. -/
def writeAvailable (env : Env) (result : Option Result) (tr : List Effect) : Run :=
  let conditions := getAvailableConditions
  let tr := tr ++ [.updateStatus conditions]
  let tr := tr ++ [.updateStatus conditions]
  match env.updateStatus 1 conditions with
  | some err =>
    match result with
    | some res => { trace := tr, outcome := .returned res none }
    | none => { trace := tr, outcome := .returned {} (some err) }
  | none =>
    match result with
    | some res => { trace := tr, outcome := .returned res none }
    | none => { trace := tr, outcome := .returned {} none }

/-- The status phase of `Reconcile`: the nine blocks in source order, then
the Available tail. -/
def statusPhase (env : Env) (result : Option Result) (tr : List Effect) : Run :=
  checkDegraded env .ServiceAccount tr fun tr =>
  checkDegraded env .Role tr fun tr =>
  checkDegraded env .ClusterRole tr fun tr =>
  checkDegraded env .ClusterRoleBinding tr fun tr =>
  checkDegraded env .RoleBinding tr fun tr =>
  checkDegraded env .Service tr fun tr =>
  checkDegraded env .WorkerConfig tr fun tr =>
  checkDaemonSet env .WorkerDaemonSet tr fun tr =>
  checkDaemonSet env .MasterDaemonSet tr fun tr =>
  writeAvailable env result tr

/-- The method `Reconcile`. -/
def Reconcile (env : Env) : Run :=
  let tr := [Effect.get]
  match env.getErr with
  | some err =>
    if IsNotFound (some err) then
      { trace := tr, outcome := .returned { Requeue := false } none }
    else
      { trace := tr, outcome := .returned { Requeue := true } (some err) }
  | none =>
    let tr := if env.specInstance != "" then tr ++ [.registerInstance] else tr
    let tr := tr ++ [.init]
    match applyComponents (NFD.init env.components) with
    | none => { trace := tr, outcome := .diverged }
    | some run =>
      let tr := tr ++ [.applyComponents run.steps]
      match run.err with
      | some err =>
        let tr := tr ++ [.metricsDegraded]
        let conditions := getDegradedConditions "Degraded" err.msg
        let tr := tr ++ [.updateStatus conditions]
        match env.updateStatus 0 conditions with
        | some err => { trace := tr, outcome := .returned {} (some err) }
        | none => { trace := tr, outcome := .returned {} (some err) }
      | none => statusPhase env run.result tr

/-- The kinds a run evaluated, in the order it evaluated them. -/
def evaluated (tr : List Effect) : List Kind :=
  tr.filterMap fun
    | .evaluate k => some k
    | _ => none

/-- The conditions a run handed to `updateStatus`, in order. -/
def written (tr : List Effect) : List Conditions :=
  tr.filterMap fun
    | .updateStatus c => some c
    | _ => none

/-! ## Manifest dispatch -/

/-- The regexp class `\w`: an ASCII letter, digit or underscore. -/
def isWordChar (c : Char) : Bool :=
  c.isAlphanum || c == '_'

/-- The function `unicode.IsSpace`, which `strings.TrimSpace` trims by. -/
def isSpace (c : Char) : Bool :=
  c == '\t' || c == '\n' || c.toNat == 0x0B || c.toNat == 0x0C || c == '\r' || c == ' ' ||
  c.toNat == 0x85 || c.toNat == 0xA0 || c.toNat == 0x1680 ||
  (0x2000 ≤ c.toNat && c.toNat ≤ 0x200A) || c.toNat == 0x2028 || c.toNat == 0x2029 ||
  c.toNat == 0x202F || c.toNat == 0x205F || c.toNat == 0x3000

/-- The pieces the pattern of `addResourcesControls` is made of. -/
inductive Item where
  | wordBoundary
  | notWordBoundary
  | char (c : Char)
  | wordStar
  | anyStar
  deriving DecidableEq, Repr

/-- The pattern `\b(\w*kind:\w*)\B.*\b`. -/
def kindPattern : List Item :=
  [.wordBoundary, .wordStar, .char 'k', .char 'i', .char 'n', .char 'd', .char ':',
   .wordStar, .notWordBoundary, .anyStar, .wordBoundary]

/-- Whether the position between `prev` and `next` is an ASCII word boundary;
outside the text counts as a non-word character. -/
def atBoundary (prev next : Option Char) : Bool :=
  (prev.map isWordChar).getD false != (next.map isWordChar).getD false

/-- A greedy star over the class `p`, followed by `k`: one more character is
tried first, and `k` at the current position when that fails. -/
def starLoop (p : Char → Bool) (k : Option Char → List Char → Option (List Char)) :
    Option Char → List Char → Option (List Char)
  | prev, [] => k prev []
  | prev, c :: cs =>
    if p c then
      match starLoop p k (some c) cs with
      | some m => some (c :: m)
      | none => k prev (c :: cs)
    else k prev (c :: cs)

/-- The text the items match at the start of `cs`, `prev` being the character
before it, in the preference order of a backtracking search. -/
def matchItems : List Item → Option Char → List Char → Option (List Char)
  | [], _, _ => some []
  | .wordBoundary :: is, prev, cs =>
    if atBoundary prev cs.head? then matchItems is prev cs else none
  | .notWordBoundary :: is, prev, cs =>
    if atBoundary prev cs.head? then none else matchItems is prev cs
  | .char _ :: _, _, [] => none
  | .char c :: is, _, d :: cs =>
    if c == d then (matchItems is (some d) cs).map (d :: ·) else none
  | .wordStar :: is, prev, cs => starLoop isWordChar (matchItems is) prev cs
  | .anyStar :: is, prev, cs => starLoop (fun c => c != '\n') (matchItems is) prev cs

/-- The leftmost match of the items in `cs`. -/
def findFrom (items : List Item) : Option Char → List Char → Option (List Char)
  | prev, [] => matchItems items prev []
  | prev, c :: cs =>
    match matchItems items prev (c :: cs) with
    | some m => some m
    | none => findFrom items (some c) cs

/-- The call `reg.FindString(s)` for the pattern of `addResourcesControls`:
the leftmost match, or the empty string when there is none. -/
def FindString (s : String) : String :=
  match findFrom kindPattern none s.data with
  | some m => String.mk m
  | none => ""

/-- The call `strings.Split(s, sep)` for a separator of one character. -/
def splitChars (sep : Char) : List Char → List (List Char)
  | [] => [[]]
  | c :: cs =>
    if c == sep then [] :: splitChars sep cs
    else
      match splitChars sep cs with
      | [] => [[c]]
      | p :: ps => (c :: p) :: ps

/-- The call `strings.Split(s, ":")`. -/
def Split (s : String) : List String :=
  (splitChars ':' s.data).map String.mk

/-- The function `strings.TrimSpace`. -/
def TrimSpace (s : String) : String :=
  String.mk ((s.data.dropWhile isSpace).reverse.dropWhile isSpace).reverse

/-- The readiness functions `addResourcesControls` appends to `ctrl`, one per
recognized kind. -/
inductive ControlFn where
  | Namespace
  | ServiceAccount
  | ClusterRole
  | ClusterRoleBinding
  | Role
  | RoleBinding
  | ConfigMap
  | DaemonSet
  | Deployment
  | Service
  | SecurityContextConstraints
  deriving DecidableEq, Repr

/-- The struct `Resources`. A field holds the manifest that `s.Decode` was
last given with this field as its target and without an error (`none`: no such
call yet); what the decoder then puts into the target, which it may also leave
at its zero value, is not modelled.

Modelled from the spec: the field `SecurityContextConstraints` is not in the
struct of the source, although the last case of the switch decodes into
`res.SecurityContextConstraints`; it is added here, SecurityContextConstraints
being one of the recognized kinds the spec lists, so that the case has a
target. -/
structure Resources where
  Namespace : Option String := none
  ServiceAccount : Option String := none
  Role : Option String := none
  RoleBinding : Option String := none
  ClusterRole : Option String := none
  ClusterRoleBinding : Option String := none
  ConfigMap : Option String := none
  DaemonSet : Option String := none
  Deployment : Option String := none
  Pod : Option String := none
  Service : Option String := none
  SecurityContextConstraints : Option String := none
  deriving DecidableEq, Repr

/-- The ways `addResourcesControls` aborts. -/
inductive Panic where
  | indexOutOfRange (index length : Nat)
  | decodeError (text : String)
  deriving DecidableEq, Repr

/-- What a call of `addResourcesControls` ends in. -/
inductive Materialized where
  | ok (res : Resources) (ctrl : List ControlFn)
  | panicked (p : Panic)
  deriving DecidableEq, Repr

/-- The body of the `for` loop of `addResourcesControls` over the remaining
manifests. `decode m f` is the error of `s.Decode(m, nil, &res.f)`, which
`panicIfError` turns into a panic; after a call without error the manifest is
recorded in the field that was the target. The default case only logs (through
an `r` the function does not declare) and goes on to the next manifest. -/
def addResourcesLoop (decode : String → ControlFn → Option String) :
    List String → Resources → List ControlFn → Materialized
  | [], res, ctrl => .ok res ctrl
  | m :: ms, res, ctrl =>
    let kind := FindString m
    let slce := Split kind
    match slce.get? 1 with
    | none => .panicked (.indexOutOfRange 1 slce.length)
    | some s1 =>
      let kind := TrimSpace s1
      if kind = "Namespace" then
        match decode m .Namespace with
        | some err => .panicked (.decodeError err)
        | none => addResourcesLoop decode ms { res with Namespace := some m } (ctrl ++ [.Namespace])
      else if kind = "ServiceAccount" then
        match decode m .ServiceAccount with
        | some err => .panicked (.decodeError err)
        | none =>
          addResourcesLoop decode ms { res with ServiceAccount := some m } (ctrl ++ [.ServiceAccount])
      else if kind = "ClusterRole" then
        match decode m .ClusterRole with
        | some err => .panicked (.decodeError err)
        | none =>
          addResourcesLoop decode ms { res with ClusterRole := some m } (ctrl ++ [.ClusterRole])
      else if kind = "ClusterRoleBinding" then
        match decode m .ClusterRoleBinding with
        | some err => .panicked (.decodeError err)
        | none =>
          addResourcesLoop decode ms { res with ClusterRoleBinding := some m }
            (ctrl ++ [.ClusterRoleBinding])
      else if kind = "Role" then
        match decode m .Role with
        | some err => .panicked (.decodeError err)
        | none => addResourcesLoop decode ms { res with Role := some m } (ctrl ++ [.Role])
      else if kind = "RoleBinding" then
        match decode m .RoleBinding with
        | some err => .panicked (.decodeError err)
        | none =>
          addResourcesLoop decode ms { res with RoleBinding := some m } (ctrl ++ [.RoleBinding])
      else if kind = "ConfigMap" then
        match decode m .ConfigMap with
        | some err => .panicked (.decodeError err)
        | none => addResourcesLoop decode ms { res with ConfigMap := some m } (ctrl ++ [.ConfigMap])
      else if kind = "DaemonSet" then
        match decode m .DaemonSet with
        | some err => .panicked (.decodeError err)
        | none => addResourcesLoop decode ms { res with DaemonSet := some m } (ctrl ++ [.DaemonSet])
      else if kind = "Deployment" then
        match decode m .Deployment with
        | some err => .panicked (.decodeError err)
        | none =>
          addResourcesLoop decode ms { res with Deployment := some m } (ctrl ++ [.Deployment])
      else if kind = "Service" then
        match decode m .Service with
        | some err => .panicked (.decodeError err)
        | none => addResourcesLoop decode ms { res with Service := some m } (ctrl ++ [.Service])
      else if kind = "SecurityContextConstraints" then
        match decode m .SecurityContextConstraints with
        | some err => .panicked (.decodeError err)
        | none =>
          addResourcesLoop decode ms { res with SecurityContextConstraints := some m }
            (ctrl ++ [.SecurityContextConstraints])
      else addResourcesLoop decode ms res ctrl

/-- The function `addResourcesControls`, on the manifests `getAssetsFrom`
read from the path. -/
def addResourcesControls (decode : String → ControlFn → Option String)
    (manifests : List String) : Materialized :=
  addResourcesLoop decode manifests {} []

/-! ## Delete helpers -/

/-- The kinds that have a delete helper. -/
inductive OwnedKind where
  | ServiceAccount
  | ConfigMap
  | DaemonSet
  | Service
  | Role
  | RoleBinding
  | ClusterRole
  | ClusterRoleBinding
  deriving DecidableEq, Repr

/-- The type `client.ObjectKey`. -/
structure ObjectKey where
  Namespace : String
  Name : String
  deriving DecidableEq, Repr

/-- A typed object as `r.Get` fills it in. -/
structure Object where
  kind : OwnedKind
  key : ObjectKey
  deriving DecidableEq, Repr

/-- The API client over a store of states `σ`: `Get` hands back the object it
filled in and its error, `Delete` the next state and its error. -/
structure Client (σ : Type) where
  Get : σ → OwnedKind → ObjectKey → Object × Option K8sError
  Delete : σ → Object → σ × Option K8sError

/-- Calls a helper makes on the client. -/
inductive StoreCall where
  | get (kind : OwnedKind) (key : ObjectKey)
  | delete (obj : Object)
  deriving DecidableEq, Repr

/-- What a delete helper leaves behind: the store, the calls it made and the
error it returns. -/
structure DeleteRun (σ : Type) where
  state : σ
  calls : List StoreCall
  err : Option K8sError

/-- The method `getServiceAccount`. -/
def getServiceAccount {σ : Type} (r : Client σ) (s : σ) (ns name : String) :
    Object × Option K8sError :=
  r.Get s .ServiceAccount { Namespace := ns, Name := name }

/-- The method `getDaemonSet`. -/
def getDaemonSet {σ : Type} (r : Client σ) (s : σ) (ns name : String) :
    Object × Option K8sError :=
  r.Get s .DaemonSet { Namespace := ns, Name := name }

/-- The method `getConfigMap`. -/
def getConfigMap {σ : Type} (r : Client σ) (s : σ) (ns name : String) :
    Object × Option K8sError :=
  r.Get s .ConfigMap { Namespace := ns, Name := name }

/-- The method `getService`. -/
def getService {σ : Type} (r : Client σ) (s : σ) (ns name : String) :
    Object × Option K8sError :=
  r.Get s .Service { Namespace := ns, Name := name }

/-- The method `getRole`. -/
def getRole {σ : Type} (r : Client σ) (s : σ) (ns name : String) :
    Object × Option K8sError :=
  r.Get s .Role { Namespace := ns, Name := name }

/-- The method `getRoleBinding`. -/
def getRoleBinding {σ : Type} (r : Client σ) (s : σ) (ns name : String) :
    Object × Option K8sError :=
  r.Get s .RoleBinding { Namespace := ns, Name := name }

/-- The method `getClusterRole`. -/
def getClusterRole {σ : Type} (r : Client σ) (s : σ) (ns name : String) :
    Object × Option K8sError :=
  r.Get s .ClusterRole { Namespace := ns, Name := name }

/-- The method `getClusterRoleBinding`. -/
def getClusterRoleBinding {σ : Type} (r : Client σ) (s : σ) (ns name : String) :
    Object × Option K8sError :=
  r.Get s .ClusterRoleBinding { Namespace := ns, Name := name }

/-- The method `deleteServiceAccount`. -/
def deleteServiceAccount {σ : Type} (r : Client σ) (s : σ) (ns name : String) :
    DeleteRun σ :=
  let (sa, err) := getServiceAccount r s ns name
  let calls := [StoreCall.get .ServiceAccount { Namespace := ns, Name := name }]
  if IsNotFound err then
    { state := s, calls := calls, err := none }
  else
    match err with
    | some e => { state := s, calls := calls, err := some e }
    | none =>
      let (s1, derr) := r.Delete s sa
      { state := s1, calls := calls ++ [.delete sa], err := derr }

/-- The method `deleteConfigMap`. -/
def deleteConfigMap {σ : Type} (r : Client σ) (s : σ) (ns name : String) :
    DeleteRun σ :=
  let (cm, err) := getConfigMap r s ns name
  let calls := [StoreCall.get .ConfigMap { Namespace := ns, Name := name }]
  if IsNotFound err then
    { state := s, calls := calls, err := none }
  else
    match err with
    | some e => { state := s, calls := calls, err := some e }
    | none =>
      let (s1, derr) := r.Delete s cm
      { state := s1, calls := calls ++ [.delete cm], err := derr }

/-- The method `deleteDaemonSet`. -/
def deleteDaemonSet {σ : Type} (r : Client σ) (s : σ) (ns name : String) :
    DeleteRun σ :=
  let (ds, err) := getDaemonSet r s ns name
  let calls := [StoreCall.get .DaemonSet { Namespace := ns, Name := name }]
  if IsNotFound err then
    { state := s, calls := calls, err := none }
  else
    match err with
    | some e => { state := s, calls := calls, err := some e }
    | none =>
      let (s1, derr) := r.Delete s ds
      { state := s1, calls := calls ++ [.delete ds], err := derr }

/-- The method `deleteService`. -/
def deleteService {σ : Type} (r : Client σ) (s : σ) (ns name : String) :
    DeleteRun σ :=
  let (svc, err) := getService r s ns name
  let calls := [StoreCall.get .Service { Namespace := ns, Name := name }]
  if IsNotFound err then
    { state := s, calls := calls, err := none }
  else
    match err with
    | some e => { state := s, calls := calls, err := some e }
    | none =>
      let (s1, derr) := r.Delete s svc
      { state := s1, calls := calls ++ [.delete svc], err := derr }

/-- The method `deleteRole`. -/
def deleteRole {σ : Type} (r : Client σ) (s : σ) (ns name : String) :
    DeleteRun σ :=
  let (role, err) := getRole r s ns name
  let calls := [StoreCall.get .Role { Namespace := ns, Name := name }]
  if IsNotFound err then
    { state := s, calls := calls, err := none }
  else
    match err with
    | some e => { state := s, calls := calls, err := some e }
    | none =>
      let (s1, derr) := r.Delete s role
      { state := s1, calls := calls ++ [.delete role], err := derr }

/-- The method `deleteRoleBinding`. -/
def deleteRoleBinding {σ : Type} (r : Client σ) (s : σ) (ns name : String) :
    DeleteRun σ :=
  let (rb, err) := getRoleBinding r s ns name
  let calls := [StoreCall.get .RoleBinding { Namespace := ns, Name := name }]
  if IsNotFound err then
    { state := s, calls := calls, err := none }
  else
    match err with
    | some e => { state := s, calls := calls, err := some e }
    | none =>
      let (s1, derr) := r.Delete s rb
      { state := s1, calls := calls ++ [.delete rb], err := derr }

/-- The method `deleteClusterRole`. -/
def deleteClusterRole {σ : Type} (r : Client σ) (s : σ) (ns name : String) :
    DeleteRun σ :=
  let (cr, err) := getClusterRole r s ns name
  let calls := [StoreCall.get .ClusterRole { Namespace := ns, Name := name }]
  if IsNotFound err then
    { state := s, calls := calls, err := none }
  else
    match err with
    | some e => { state := s, calls := calls, err := some e }
    | none =>
      let (s1, derr) := r.Delete s cr
      { state := s1, calls := calls ++ [.delete cr], err := derr }

/-- The method `deleteClusterRoleBinding`. -/
def deleteClusterRoleBinding {σ : Type} (r : Client σ) (s : σ) (ns name : String) :
    DeleteRun σ :=
  let (crb, err) := getClusterRoleBinding r s ns name
  let calls := [StoreCall.get .ClusterRoleBinding { Namespace := ns, Name := name }]
  if IsNotFound err then
    { state := s, calls := calls, err := none }
  else
    match err with
    | some e => { state := s, calls := calls, err := some e }
    | none =>
      let (s1, derr) := r.Delete s crb
      { state := s1, calls := calls ++ [.delete crb], err := derr }

/-! ## The update-event filter -/

/-- The type `event.UpdateEvent`; a nil object is `none`. -/
structure UpdateEvent where
  ObjectOld : Option Object
  ObjectNew : Option Object
  deriving DecidableEq, Repr

/-- The function `validateUpdateEvent`. -/
def validateUpdateEvent (e : UpdateEvent) : Bool :=
  if e.ObjectOld = none then false
  else if e.ObjectNew = none then false
  else true

/-- The `UpdateFunc` of the predicate `SetupWithManager` installs on the owned
objects. -/
def UpdateFunc (e : UpdateEvent) : Bool :=
  if validateUpdateEvent e then false
  else true

/-! ## Vocabulary of the statements about `Reconcile` -/

/-- The position of a kind in `kindOrder`. -/
def Kind.pos : Kind → Nat
  | .ServiceAccount => 0
  | .Role => 1
  | .ClusterRole => 2
  | .ClusterRoleBinding => 3
  | .RoleBinding => 4
  | .Service => 5
  | .WorkerConfig => 6
  | .WorkerDaemonSet => 7
  | .MasterDaemonSet => 8

/-- The two kinds that go through the daemon-set block. -/
def Kind.isDaemonSet : Kind → Bool
  | .WorkerDaemonSet => true
  | .MasterDaemonSet => true
  | _ => false

/-- A snapshot with `isDegraded` or `isProgressing` set. -/
def flagged (s : Status × Option K8sError) : Bool :=
  s.1.isDegraded || s.1.isProgressing

/-- A snapshot that is healthy in the broad sense: no flag and no error. -/
def healthy (s : Status × Option K8sError) : Bool :=
  !s.1.isDegraded && !s.1.isProgressing && s.2.isNone

/-- A snapshot that stops the evaluation at kind `k`: `isDegraded`, a returned
error, or, for a daemon set only, `isProgressing`. -/
def triggers (k : Kind) (s : Status × Option K8sError) : Bool :=
  s.1.isDegraded || s.2.isSome || (k.isDaemonSet && s.1.isProgressing)

/-- The conditions the block of kind `k` writes for a snapshot with status
`st` and error `e`. -/
def decided (env : Env) (k : Kind) (st : Status) (e : K8sError) : Conditions :=
  if k.isDaemonSet && st.isProgressing then getProgressingConditions e.msg e.msg
  else if st.isDegraded then getDegradedConditions e.msg e.msg
  else getDegradedConditions (env.failedCondition k) e.msg

/-- The error `applyComponents` returns for the components of `env`, when it
returns. -/
def applyErr (env : Env) : Option (Option K8sError) :=
  (applyComponents (NFD.init env.components)).map ApplyRun.err

/-- An environment for concrete runs: the instance is found unless `getErr`
says otherwise, every kind's constant is `"Failed"`, and the two helpers ask
for a requeue after a successful write and hand a failed write back. -/
def sampleEnv (getErr : Option K8sError) (components : List (Option K8sError))
    (conditions : Kind → Status × Option K8sError)
    (updateStatus : Nat → Conditions → Option K8sError) : Env :=
  { getErr := getErr
    specInstance := "nfd"
    components := components
    conditions := conditions
    updateStatus := updateStatus
    failedCondition := fun _ => "Failed"
    degradedReturn := fun w => match w with
      | some e => ({}, some e)
      | none => ({ Requeue := true }, none)
    progressingReturn := fun w => match w with
      | some e => ({}, some e)
      | none => ({ Requeue := true }, none) }

/-- The snapshot of an object that is there and ready. -/
def readySnapshot : Status × Option K8sError :=
  ({ isAvailable := true }, none)

/-- All nine kinds ready except kind `k`, whose snapshot is `s`. -/
def allReadyBut (k : Kind) (s : Status × Option K8sError) :
    Kind → Status × Option K8sError :=
  fun k1 => if k1 = k then s else readySnapshot

/-- A pass in which the service-account snapshot has only `isProgressing` set
and carries no error; every other kind is ready. -/
def envProgressingServiceAccount : Env :=
  sampleEnv none [none]
    (allReadyBut .ServiceAccount ({ isProgressing := true }, none)) (fun _ _ => none)

/-- A pass in which the role snapshot has only `isProgressing` set and carries
no error; every other kind is ready. -/
def envProgressingRole : Env :=
  sampleEnv none [none]
    (allReadyBut .Role ({ isProgressing := true }, none)) (fun _ _ => none)

/-- A pass in which the service-account snapshot is degraded and carries no
error; every other kind is ready. -/
def envDegradedNoError : Env :=
  sampleEnv none [none]
    (allReadyBut .ServiceAccount ({ isDegraded := true }, none)) (fun _ _ => none)

/-- A pass in which every kind is ready and every status write fails. -/
def envWriteFails : Env :=
  sampleEnv none [none] (fun _ => readySnapshot)
    (fun _ _ => some { msg := "the object has been modified", notFound := false })

/-- A pass in which the cluster role is degraded with an error and the kinds
after it are in assorted states. -/
def envClusterRoleDegraded : Env :=
  sampleEnv none [none, none]
    (fun k => match k with
      | .ClusterRole => ({ isDegraded := true }, some { msg := "cluster role missing", notFound := false })
      | .Service => ({ isDegraded := true }, none)
      | .WorkerDaemonSet => ({ isProgressing := true }, some { msg := "rolling out", notFound := false })
      | _ => readySnapshot)
    (fun _ _ => none)

/-- A pass whose second component fails to apply. -/
def envApplyFails : Env :=
  sampleEnv none [none, some { msg := "create failed", notFound := false }, none]
    (fun _ => readySnapshot) (fun _ _ => none)

/-- A pass whose instance is gone. -/
def envNotFound : Env :=
  sampleEnv (some { msg := "not found", notFound := true }) [none]
    (fun _ => readySnapshot) (fun _ _ => none)

/-- A pass in which every kind is ready and every write succeeds. -/
def envAllReady : Env :=
  sampleEnv none [none, none] (fun _ => readySnapshot) (fun _ _ => none)

/-! ## Vocabulary of the statements about `addResourcesControls` -/

/-- The eleven recognized kind names, each with its readiness function. -/
def recognizedKinds : List (String × ControlFn) :=
  [("Namespace", .Namespace), ("ServiceAccount", .ServiceAccount),
   ("ClusterRole", .ClusterRole), ("ClusterRoleBinding", .ClusterRoleBinding),
   ("Role", .Role), ("RoleBinding", .RoleBinding), ("ConfigMap", .ConfigMap),
   ("DaemonSet", .DaemonSet), ("Deployment", .Deployment), ("Service", .Service),
   ("SecurityContextConstraints", .SecurityContextConstraints)]

/-- The readiness function of a kind name: the entry of `recognizedKinds`
whose name is exactly `kind`. -/
def controlOf (kind : String) : Option ControlFn :=
  (recognizedKinds.find? fun p => kind = p.1).map Prod.snd

/-- The field of `Resources` that belongs to `f`, set to the manifest `m`. -/
def Resources.store (res : Resources) (f : ControlFn) (m : String) : Resources :=
  match f with
  | .Namespace => { res with Namespace := some m }
  | .ServiceAccount => { res with ServiceAccount := some m }
  | .ClusterRole => { res with ClusterRole := some m }
  | .ClusterRoleBinding => { res with ClusterRoleBinding := some m }
  | .Role => { res with Role := some m }
  | .RoleBinding => { res with RoleBinding := some m }
  | .ConfigMap => { res with ConfigMap := some m }
  | .DaemonSet => { res with DaemonSet := some m }
  | .Deployment => { res with Deployment := some m }
  | .Service => { res with Service := some m }
  | .SecurityContextConstraints => { res with SecurityContextConstraints := some m }

/-- A decoder that accepts every document. -/
def decodeAll : String → ControlFn → Option String :=
  fun _ _ => none

/-- A namespace manifest. -/
def namespaceManifest : String :=
  "apiVersion: v1\nkind: Namespace\nmetadata:\n  name: openshift-nfd\n"

/-- A document without a `kind` field. -/
def kindlessManifest : String :=
  "apiVersion: v1\nmetadata:\n  name: nfd-worker\n"

/-- The value of the document's own `kind` field, read off the document and
not off the pattern: the text after `kind:` on the first line that begins with
it in the first column, trimmed. -/
def topLevelKind (m : String) : Option String :=
  ((splitChars '\n' m.data).find? fun l => l.take 5 = "kind:".data).map
    fun l => TrimSpace (String.mk (l.drop 5))

/-- A role binding whose `subjects` come before its `kind` line. -/
def roleBindingManifest : String :=
  "apiVersion: rbac.authorization.k8s.io/v1\nsubjects:\n- kind: ServiceAccount\n  name: nfd-worker\n  namespace: openshift-nfd\nkind: RoleBinding\nmetadata:\n  name: nfd-worker\nroleRef:\n  apiGroup: rbac.authorization.k8s.io\n  kind: Role\n  name: nfd-worker\n"

/-- A namespace manifest whose `kind` key is quoted. -/
def quotedKindManifest : String :=
  "apiVersion: v1\n\"kind\": Namespace\nmetadata:\n  name: openshift-nfd\n"

/-! ## Vocabulary of the statements about the delete helpers -/

/-- The delete helper of each kind. -/
def deleteOf {σ : Type} (k : OwnedKind) (r : Client σ) (s : σ) (ns name : String) :
    DeleteRun σ :=
  match k with
  | .ServiceAccount => deleteServiceAccount r s ns name
  | .ConfigMap => deleteConfigMap r s ns name
  | .DaemonSet => deleteDaemonSet r s ns name
  | .Service => deleteService r s ns name
  | .Role => deleteRole r s ns name
  | .RoleBinding => deleteRoleBinding r s ns name
  | .ClusterRole => deleteClusterRole r s ns name
  | .ClusterRoleBinding => deleteClusterRoleBinding r s ns name

/-- The error of a lookup that finds nothing. -/
def notFoundError : K8sError :=
  { msg := "not found", notFound := true }

/-- A client that reads from a stale cache: `Get` still finds every object,
`Delete` answers not-found and leaves the store as it is. -/
def staleClient : Client Unit where
  Get := fun _ k key => ({ kind := k, key := key }, none)
  Delete := fun s _ => (s, some notFoundError)

/-- An update event with both objects present. -/
def eventBothPresent : UpdateEvent :=
  { ObjectOld := some { kind := .DaemonSet, key := { Namespace := "openshift-nfd", Name := "nfd-worker" } }
    ObjectNew := some { kind := .DaemonSet, key := { Namespace := "openshift-nfd", Name := "nfd-worker" } } }

/-- An update event without an old object. -/
def eventNoOld : UpdateEvent :=
  { ObjectOld := none
    ObjectNew := some { kind := .DaemonSet, key := { Namespace := "openshift-nfd", Name := "nfd-worker" } } }

/-! ## Vocabulary of the statements about `applyComponents` and the daemon sets -/

/-- Three components, the second of which fails to apply. -/
def failsAtOne : List (Option K8sError) :=
  [none, some { msg := "create failed", notFound := false }, none]

/-- The environment `env` with `isProgressing` of each of the seven
existence-only kinds replaced by `f`; the daemon sets are left as they are. -/
def Env.withProgressing (env : Env) (f : Kind → Bool) : Env :=
  { env with
    conditions := fun k =>
      if k.isDaemonSet then env.conditions k
      else ({ (env.conditions k).1 with isProgressing := f k }, (env.conditions k).2) }

/-- A pass in which the worker daemon set has `isProgressing` and `isDegraded`
set and carries no error; every other kind is ready. -/
def envWorkerProgressingNoError : Env :=
  sampleEnv none [none]
    (allReadyBut .WorkerDaemonSet ({ isProgressing := true, isDegraded := true }, none))
    (fun _ _ => none)

/-- A pass in which the worker daemon set has `isProgressing` and `isDegraded`
set and carries an error; every other kind is ready. -/
def envWorkerBothFlags : Env :=
  sampleEnv none [none]
    (allReadyBut .WorkerDaemonSet
      ({ isProgressing := true, isDegraded := true },
        some { msg := "number of ready nodes is less than scheduled", notFound := false }))
    (fun _ _ => none)

/-! ## Theorems -/

/-- From the first component on, `applyComponents` always comes back, and the
pointer it returns is never nil. -/
theorem applyLoop_isSome (fuel : Nat) (n : NFD) (calls : Nat)
    (hidx : n.idx ≤ n.components.length)
    (hfuel : n.components.length + 1 - n.idx ≤ fuel) :
    ∃ run, applyLoop fuel n calls = some run ∧ run.result = some {} := by
  induction fuel generalizing n calls with
  | zero => omega
  | succ fuel ih =>
    unfold applyLoop NFD.step
    rcases hget : n.components.get? n.idx with _ | c
    · have hlen : n.components.length ≤ n.idx := List.get?_eq_none.mp hget
      have : n.idx = n.components.length := by omega
      simp [NFD.last, this]
    · have hlt : n.idx < n.components.length := by
        rcases Nat.lt_or_ge n.idx n.components.length with h | h
        · exact h
        · rw [List.get?_eq_none.mpr h] at hget; cases hget
      cases c with
      | some e => simp
      | none =>
        simp only []
        split
        · exact ⟨_, rfl, rfl⟩
        · exact ih _ _ (by simpa using hlt) (by simp; omega)

theorem applyComponents_init (components : List (Option K8sError)) :
    ∃ run, applyComponents (NFD.init components) = some run ∧ run.result = some {} :=
  applyLoop_isSome _ _ _ (by simp [NFD.init]) (by simp [NFD.init])

theorem Reconcile_applied (env : Env) (hget : env.getErr = none)
    (happ : applyErr env = some none) :
    ∃ tr, evaluated tr = [] ∧ written tr = [] ∧
      Reconcile env = statusPhase env (some {}) tr := by
  obtain ⟨run, hrun, hres⟩ := applyComponents_init env.components
  have herr : run.err = none := by
    simpa [applyErr, hrun] using happ
  refine ⟨(if env.specInstance != "" then [Effect.get] ++ [.registerInstance]
      else [Effect.get]) ++ [.init] ++ [.applyComponents run.steps], ?_, ?_, ?_⟩
  · split <;> rfl
  · split <;> rfl
  · simp only [Reconcile, hget, hrun, herr, hres]

theorem evaluated_append (a b : List Effect) :
    evaluated (a ++ b) = evaluated a ++ evaluated b := by
  simp [evaluated]

theorem written_append (a b : List Effect) :
    written (a ++ b) = written a ++ written b := by
  simp [written]


theorem evaluated_map_evaluate (l : List Kind) :
    evaluated (l.map Effect.evaluate) = l := by
  induction l with
  | nil => rfl
  | cons a l ih => simpa [evaluated] using ih

theorem Reconcile_of_apply_error (env : Env) (e : K8sError)
    (hget : env.getErr = none) (happ : applyErr env = some (some e)) :
    written (Reconcile env).trace = [getDegradedConditions "Degraded" e.msg] ∧
      evaluated (Reconcile env).trace = [] ∧
      (Reconcile env).outcome
        = .returned {} (some
            (match env.updateStatus 0 (getDegradedConditions "Degraded" e.msg) with
              | some w => w
              | none => e)) := by
  obtain ⟨run, hrun, _⟩ := applyComponents_init env.components
  have herr : run.err = some e := by simpa [applyErr, hrun] using happ
  simp only [Reconcile, hget, hrun, herr]
  by_cases hs : env.specInstance = "" <;>
    cases hw : env.updateStatus 0 (getDegradedConditions "Degraded" e.msg) <;>
    simp [written, evaluated, hs]

theorem written_map_evaluate (l : List Kind) :
    written (l.map Effect.evaluate) = [] := by
  induction l with
  | nil => rfl
  | cons a l ih => simp [written]

theorem writeAvailable_some (env : Env) (res : Result) (tr : List Effect) :
    writeAvailable env (some res) tr
      = { trace := tr ++ [.updateStatus getAvailableConditions,
            .updateStatus getAvailableConditions],
          outcome := .returned res none } := by
  simp only [writeAvailable]
  split <;> simp

theorem checkDegraded_pass (env : Env) (k : Kind) (tr : List Effect)
    (next : List Effect → Run) (h : triggers k (env.conditions k) = false) :
    checkDegraded env k tr next = next (tr ++ [.evaluate k]) := by
  rcases hc : env.conditions k with ⟨st, err⟩
  simp only [triggers, hc, Bool.or_eq_false_iff] at h
  obtain ⟨⟨hd, he⟩, _⟩ := h
  cases err with
  | some e => simp at he
  | none => simp [checkDegraded, hc, hd]

theorem checkDaemonSet_pass (env : Env) (k : Kind) (tr : List Effect)
    (next : List Effect → Run) (hk : k.isDaemonSet = true)
    (h : triggers k (env.conditions k) = false) :
    checkDaemonSet env k tr next = next (tr ++ [.evaluate k]) := by
  rcases hc : env.conditions k with ⟨st, err⟩
  simp only [triggers, hc, hk, Bool.or_eq_false_iff, Bool.true_and] at h
  obtain ⟨⟨hd, he⟩, hp⟩ := h
  cases err with
  | some e => simp at he
  | none => simp [checkDaemonSet, hc, hd, hp]

theorem checkDegraded_stop (env : Env) (k : Kind) (tr : List Effect)
    (next : List Effect → Run) (e : K8sError) (hk : k.isDaemonSet = false)
    (h : (env.conditions k).2 = some e) :
    (checkDegraded env k tr next).trace
      = tr ++ [.evaluate k, .updateStatus (decided env k (env.conditions k).1 e)] := by
  rcases hc : env.conditions k with ⟨st, err⟩
  rw [hc] at h
  simp only at h
  subst h
  by_cases hd : st.isDegraded = true <;>
    simp [checkDegraded, hc, hd, decided, hk, updateDegradedCondition]

theorem checkDaemonSet_stop (env : Env) (k : Kind) (tr : List Effect)
    (next : List Effect → Run) (e : K8sError) (hk : k.isDaemonSet = true)
    (h : (env.conditions k).2 = some e) :
    (checkDaemonSet env k tr next).trace
      = tr ++ [.evaluate k, .updateStatus (decided env k (env.conditions k).1 e)] := by
  rcases hc : env.conditions k with ⟨st, err⟩
  rw [hc] at h
  simp only at h
  subst h
  by_cases hp : st.isProgressing = true <;> by_cases hd : st.isDegraded = true <;>
    simp [checkDaemonSet, hc, hd, hp, decided, hk, updateDegradedCondition,
      updateProgressingCondition]

theorem statusPhase_first (env : Env) (result : Option Result) (tr : List Effect)
    (k : Kind) (e : K8sError)
    (hfirst : ∀ k1 : Kind, k1.pos < k.pos → triggers k1 (env.conditions k1) = false)
    (herr : (env.conditions k).2 = some e) :
    (statusPhase env result tr).trace
      = tr ++ (kindOrder.take (k.pos + 1)).map Effect.evaluate
          ++ [.updateStatus (decided env k (env.conditions k).1 e)] := by
  have h0 := hfirst .ServiceAccount
  have h1 := hfirst .Role
  have h2 := hfirst .ClusterRole
  have h3 := hfirst .ClusterRoleBinding
  have h4 := hfirst .RoleBinding
  have h5 := hfirst .Service
  have h6 := hfirst .WorkerConfig
  have h7 := hfirst .WorkerDaemonSet
  unfold statusPhase
  cases k <;> simp only [Kind.pos, Nat.lt_irrefl, Nat.not_lt_zero, false_implies,
    Nat.zero_lt_succ, Nat.reduceLT, true_implies] at h0 h1 h2 h3 h4 h5 h6 h7
  · rw [checkDegraded_stop env .ServiceAccount _ _ e rfl herr]
    simp [kindOrder, Kind.pos]
  · rw [checkDegraded_pass env .ServiceAccount _ _ h0,
      checkDegraded_stop env .Role _ _ e rfl herr]
    simp [kindOrder, Kind.pos]
  · rw [checkDegraded_pass env .ServiceAccount _ _ h0,
      checkDegraded_pass env .Role _ _ h1,
      checkDegraded_stop env .ClusterRole _ _ e rfl herr]
    simp [kindOrder, Kind.pos]
  · rw [checkDegraded_pass env .ServiceAccount _ _ h0,
      checkDegraded_pass env .Role _ _ h1,
      checkDegraded_pass env .ClusterRole _ _ h2,
      checkDegraded_stop env .ClusterRoleBinding _ _ e rfl herr]
    simp [kindOrder, Kind.pos]
  · rw [checkDegraded_pass env .ServiceAccount _ _ h0,
      checkDegraded_pass env .Role _ _ h1,
      checkDegraded_pass env .ClusterRole _ _ h2,
      checkDegraded_pass env .ClusterRoleBinding _ _ h3,
      checkDegraded_stop env .RoleBinding _ _ e rfl herr]
    simp [kindOrder, Kind.pos]
  · rw [checkDegraded_pass env .ServiceAccount _ _ h0,
      checkDegraded_pass env .Role _ _ h1,
      checkDegraded_pass env .ClusterRole _ _ h2,
      checkDegraded_pass env .ClusterRoleBinding _ _ h3,
      checkDegraded_pass env .RoleBinding _ _ h4,
      checkDegraded_stop env .Service _ _ e rfl herr]
    simp [kindOrder, Kind.pos]
  · rw [checkDegraded_pass env .ServiceAccount _ _ h0,
      checkDegraded_pass env .Role _ _ h1,
      checkDegraded_pass env .ClusterRole _ _ h2,
      checkDegraded_pass env .ClusterRoleBinding _ _ h3,
      checkDegraded_pass env .RoleBinding _ _ h4,
      checkDegraded_pass env .Service _ _ h5,
      checkDegraded_stop env .WorkerConfig _ _ e rfl herr]
    simp [kindOrder, Kind.pos]
  · rw [checkDegraded_pass env .ServiceAccount _ _ h0,
      checkDegraded_pass env .Role _ _ h1,
      checkDegraded_pass env .ClusterRole _ _ h2,
      checkDegraded_pass env .ClusterRoleBinding _ _ h3,
      checkDegraded_pass env .RoleBinding _ _ h4,
      checkDegraded_pass env .Service _ _ h5,
      checkDegraded_pass env .WorkerConfig _ _ h6,
      checkDaemonSet_stop env .WorkerDaemonSet _ _ e rfl herr]
    simp [kindOrder, Kind.pos]
  · rw [checkDegraded_pass env .ServiceAccount _ _ h0,
      checkDegraded_pass env .Role _ _ h1,
      checkDegraded_pass env .ClusterRole _ _ h2,
      checkDegraded_pass env .ClusterRoleBinding _ _ h3,
      checkDegraded_pass env .RoleBinding _ _ h4,
      checkDegraded_pass env .Service _ _ h5,
      checkDegraded_pass env .WorkerConfig _ _ h6,
      checkDaemonSet_pass env .WorkerDaemonSet _ _ rfl h7,
      checkDaemonSet_stop env .MasterDaemonSet _ _ e rfl herr]
    simp [kindOrder, Kind.pos]

theorem statusPhase_none (env : Env) (result : Option Result) (tr : List Effect)
    (h : ∀ k : Kind, triggers k (env.conditions k) = false) :
    statusPhase env result tr
      = writeAvailable env result (tr ++ kindOrder.map Effect.evaluate) := by
  unfold statusPhase
  rw [checkDegraded_pass env .ServiceAccount _ _ (h _),
    checkDegraded_pass env .Role _ _ (h _),
    checkDegraded_pass env .ClusterRole _ _ (h _),
    checkDegraded_pass env .ClusterRoleBinding _ _ (h _),
    checkDegraded_pass env .RoleBinding _ _ (h _),
    checkDegraded_pass env .Service _ _ (h _),
    checkDegraded_pass env .WorkerConfig _ _ (h _),
    checkDaemonSet_pass env .WorkerDaemonSet _ _ rfl (h _),
    checkDaemonSet_pass env .MasterDaemonSet _ _ rfl (h _)]
  simp [kindOrder]

theorem checkDegraded_panic (env : Env) (k : Kind) (tr : List Effect)
    (next : List Effect → Run) (hk : k.isDaemonSet = false)
    (ht : triggers k (env.conditions k) = true) (h : (env.conditions k).2 = none) :
    checkDegraded env k tr next = { trace := tr ++ [.evaluate k], outcome := .panicked } := by
  rcases hc : env.conditions k with ⟨st, err⟩
  rw [hc] at h
  simp only at h
  subst h
  simp only [triggers, hc, hk, Option.isSome_none, Bool.or_false, Bool.false_and] at ht
  simp [checkDegraded, hc, ht]

theorem checkDaemonSet_panic (env : Env) (k : Kind) (tr : List Effect)
    (next : List Effect → Run) (hk : k.isDaemonSet = true)
    (ht : triggers k (env.conditions k) = true) (h : (env.conditions k).2 = none) :
    checkDaemonSet env k tr next = { trace := tr ++ [.evaluate k], outcome := .panicked } := by
  rcases hc : env.conditions k with ⟨st, err⟩
  rw [hc] at h
  simp only at h
  subst h
  simp only [triggers, hc, hk, Option.isSome_none, Bool.or_false, Bool.true_and,
    Bool.or_eq_true] at ht
  by_cases hp : st.isProgressing = true
  · simp [checkDaemonSet, hc, hp]
  · have hd : st.isDegraded = true := by
      rcases ht with h1 | h1
      · exact h1
      · exact absurd h1 hp
    simp [checkDaemonSet, hc, hp, hd]

theorem statusPhase_panic (env : Env) (result : Option Result) (tr : List Effect)
    (k : Kind)
    (hfirst : ∀ k1 : Kind, k1.pos < k.pos → triggers k1 (env.conditions k1) = false)
    (ht : triggers k (env.conditions k) = true) (herr : (env.conditions k).2 = none) :
    statusPhase env result tr
      = { trace := tr ++ (kindOrder.take (k.pos + 1)).map Effect.evaluate,
          outcome := .panicked } := by
  have h0 := hfirst .ServiceAccount
  have h1 := hfirst .Role
  have h2 := hfirst .ClusterRole
  have h3 := hfirst .ClusterRoleBinding
  have h4 := hfirst .RoleBinding
  have h5 := hfirst .Service
  have h6 := hfirst .WorkerConfig
  have h7 := hfirst .WorkerDaemonSet
  unfold statusPhase
  cases k <;> simp only [Kind.pos, Nat.lt_irrefl, Nat.not_lt_zero, false_implies,
    Nat.zero_lt_succ, Nat.reduceLT, true_implies] at h0 h1 h2 h3 h4 h5 h6 h7
  · rw [checkDegraded_panic env .ServiceAccount _ _ rfl ht herr]
    simp [kindOrder, Kind.pos]
  · rw [checkDegraded_pass env .ServiceAccount _ _ h0,
      checkDegraded_panic env .Role _ _ rfl ht herr]
    simp [kindOrder, Kind.pos]
  · rw [checkDegraded_pass env .ServiceAccount _ _ h0,
      checkDegraded_pass env .Role _ _ h1,
      checkDegraded_panic env .ClusterRole _ _ rfl ht herr]
    simp [kindOrder, Kind.pos]
  · rw [checkDegraded_pass env .ServiceAccount _ _ h0,
      checkDegraded_pass env .Role _ _ h1,
      checkDegraded_pass env .ClusterRole _ _ h2,
      checkDegraded_panic env .ClusterRoleBinding _ _ rfl ht herr]
    simp [kindOrder, Kind.pos]
  · rw [checkDegraded_pass env .ServiceAccount _ _ h0,
      checkDegraded_pass env .Role _ _ h1,
      checkDegraded_pass env .ClusterRole _ _ h2,
      checkDegraded_pass env .ClusterRoleBinding _ _ h3,
      checkDegraded_panic env .RoleBinding _ _ rfl ht herr]
    simp [kindOrder, Kind.pos]
  · rw [checkDegraded_pass env .ServiceAccount _ _ h0,
      checkDegraded_pass env .Role _ _ h1,
      checkDegraded_pass env .ClusterRole _ _ h2,
      checkDegraded_pass env .ClusterRoleBinding _ _ h3,
      checkDegraded_pass env .RoleBinding _ _ h4,
      checkDegraded_panic env .Service _ _ rfl ht herr]
    simp [kindOrder, Kind.pos]
  · rw [checkDegraded_pass env .ServiceAccount _ _ h0,
      checkDegraded_pass env .Role _ _ h1,
      checkDegraded_pass env .ClusterRole _ _ h2,
      checkDegraded_pass env .ClusterRoleBinding _ _ h3,
      checkDegraded_pass env .RoleBinding _ _ h4,
      checkDegraded_pass env .Service _ _ h5,
      checkDegraded_panic env .WorkerConfig _ _ rfl ht herr]
    simp [kindOrder, Kind.pos]
  · rw [checkDegraded_pass env .ServiceAccount _ _ h0,
      checkDegraded_pass env .Role _ _ h1,
      checkDegraded_pass env .ClusterRole _ _ h2,
      checkDegraded_pass env .ClusterRoleBinding _ _ h3,
      checkDegraded_pass env .RoleBinding _ _ h4,
      checkDegraded_pass env .Service _ _ h5,
      checkDegraded_pass env .WorkerConfig _ _ h6,
      checkDaemonSet_panic env .WorkerDaemonSet _ _ rfl ht herr]
    simp [kindOrder, Kind.pos]
  · rw [checkDegraded_pass env .ServiceAccount _ _ h0,
      checkDegraded_pass env .Role _ _ h1,
      checkDegraded_pass env .ClusterRole _ _ h2,
      checkDegraded_pass env .ClusterRoleBinding _ _ h3,
      checkDegraded_pass env .RoleBinding _ _ h4,
      checkDegraded_pass env .Service _ _ h5,
      checkDegraded_pass env .WorkerConfig _ _ h6,
      checkDaemonSet_pass env .WorkerDaemonSet _ _ rfl h7,
      checkDaemonSet_panic env .MasterDaemonSet _ _ rfl ht herr]
    simp [kindOrder, Kind.pos]

theorem first_trigger (env : Env)
    (h : ¬ ∀ k : Kind, triggers k (env.conditions k) = false) :
    ∃ k : Kind, triggers k (env.conditions k) = true ∧
      ∀ k1 : Kind, k1.pos < k.pos → triggers k1 (env.conditions k1) = false := by
  classical
  push_neg at h
  obtain ⟨k0, hk0⟩ := h
  have hex : ∃ n, ∃ k : Kind, k.pos = n ∧ triggers k (env.conditions k) = true :=
    ⟨k0.pos, k0, rfl, by simpa using hk0⟩
  obtain ⟨k, hk, hkt⟩ := Nat.find_spec hex
  refine ⟨k, hkt, fun k1 hlt => ?_⟩
  by_contra hne
  have hlt2 : k1.pos < Nat.find hex := by rw [← hk]; exact hlt
  exact Nat.find_min hex hlt2 ⟨k1, rfl, by simpa using hne⟩

/-! ### Claims about `Reconcile` -/

/-- C1, amended: after the components applied without error, the kinds are
evaluated in the fixed order, and the first kind whose snapshot stops the
evaluation (`isDegraded`, a returned error, or `isProgressing` for a daemon
set only) decides the condition when it carries an error `e`: Progressing for
a daemon set with `isProgressing`, Degraded otherwise, with the text of `e` as
message; exactly the kinds up to it are evaluated and nothing else is
written. -/
theorem Reconcile_first_trigger_decides (env : Env) (k : Kind) (e : K8sError)
    (hget : env.getErr = none) (happ : applyErr env = some none)
    (hfirst : ∀ k1 : Kind, k1.pos < k.pos → triggers k1 (env.conditions k1) = false)
    (herr : (env.conditions k).2 = some e) :
    evaluated (Reconcile env).trace = kindOrder.take (k.pos + 1) ∧
      written (Reconcile env).trace = [decided env k (env.conditions k).1 e] ∧
      (decided env k (env.conditions k).1 e).message = e.msg ∧
      (decided env k (env.conditions k).1 e).type
        = (if k.isDaemonSet && (env.conditions k).1.isProgressing then .Progressing
           else .Degraded) := by
  obtain ⟨tr, hev, hwr, hrec⟩ := Reconcile_applied env hget happ
  rw [hrec, statusPhase_first env _ tr k e hfirst herr]
  refine ⟨?_, ?_, ?_, ?_⟩
  · simp only [evaluated_append, hev, List.nil_append, evaluated_map_evaluate]
    simp [evaluated]
  · simp only [written_append, hwr, List.nil_append, written_map_evaluate]
    simp [written]
  · unfold decided
    split
    · rfl
    · split <;> rfl
  · unfold decided
    split
    · rfl
    · split <;> rfl

/-- Witness for C1, amended: the cluster role is the first kind that stops
the evaluation. -/
theorem Reconcile_first_trigger_decides_witness :
    evaluated (Reconcile envClusterRoleDegraded).trace
        = [.ServiceAccount, .Role, .ClusterRole] ∧
      written (Reconcile envClusterRoleDegraded).trace
        = [getDegradedConditions "cluster role missing" "cluster role missing"] :=
  have h := Reconcile_first_trigger_decides envClusterRoleDegraded .ClusterRole
    { msg := "cluster role missing", notFound := false } rfl (by decide)
    (by intro k1 h1; cases k1 <;> first | rfl | exact absurd h1 (by decide)) rfl
  ⟨h.1, h.2.1⟩

/-- C1 as worded fails: the service account is the first kind with
`isProgressing` set, yet all nine kinds are evaluated and Available is
written. -/
theorem Reconcile_first_flagged_counterexample :
    flagged (envProgressingServiceAccount.conditions .ServiceAccount) = true ∧
      evaluated (Reconcile envProgressingServiceAccount).trace = kindOrder ∧
      written (Reconcile envProgressingServiceAccount).trace
        = [getAvailableConditions, getAvailableConditions] := by
  decide

/-- C2: a degraded snapshot that carries no error makes the status phase
panic at `err.Error()`; no condition is written. -/
theorem Reconcile_degraded_without_error_panics :
    envDegradedNoError.conditions .ServiceAccount = ({ isDegraded := true }, none) ∧
      (Reconcile envDegradedNoError).outcome = .panicked ∧
      written (Reconcile envDegradedNoError).trace = [] := by
  decide

/-- C3, amended: Available is written exactly when the instance was fetched,
the components applied without error and no kind stops the evaluation
(`isDegraded`, a returned error, or `isProgressing` of a daemon set); in that
case Available is what is written and the empty result is returned with no
error. -/
theorem Reconcile_available_iff (env : Env) :
    (getAvailableConditions ∈ written (Reconcile env).trace ↔
        (env.getErr = none ∧ applyErr env = some none ∧
          ∀ k : Kind, triggers k (env.conditions k) = false)) ∧
      ((env.getErr = none ∧ applyErr env = some none ∧
          ∀ k : Kind, triggers k (env.conditions k) = false) →
        written (Reconcile env).trace = [getAvailableConditions, getAvailableConditions] ∧
          (Reconcile env).outcome = .returned {} none) := by
  have hfwd : (env.getErr = none ∧ applyErr env = some none ∧
      ∀ k : Kind, triggers k (env.conditions k) = false) →
      written (Reconcile env).trace = [getAvailableConditions, getAvailableConditions] ∧
        (Reconcile env).outcome = .returned {} none := by
    rintro ⟨hget, happ, hno⟩
    obtain ⟨tr, _, hwr, hrec⟩ := Reconcile_applied env hget happ
    rw [hrec, statusPhase_none env _ tr hno, writeAvailable_some]
    constructor
    · simp only [written_append, hwr, written_map_evaluate]
      simp [written]
    · rfl
  refine ⟨⟨fun hmem => ?_, fun h => ?_⟩, hfwd⟩
  · rcases hget : env.getErr with _ | ge
    · obtain ⟨run, hrun, hres⟩ := applyComponents_init env.components
      rcases herr : run.err with _ | ae
      · have happ : applyErr env = some none := by simp [applyErr, hrun, herr]
        refine ⟨rfl, happ, ?_⟩
        by_contra hno
        obtain ⟨k, hk, hfirst⟩ := first_trigger env hno
        obtain ⟨tr, _, hwr, hrec⟩ := Reconcile_applied env hget happ
        rcases hke : (env.conditions k).2 with _ | e
        · rw [hrec, statusPhase_panic env _ tr k hfirst hk hke] at hmem
          simp only [written_append, hwr, List.nil_append, written_map_evaluate] at hmem
          simp at hmem
        · rw [hrec, statusPhase_first env _ tr k e hfirst hke] at hmem
          simp only [written_append, hwr, List.nil_append, written_map_evaluate] at hmem
          simp only [written, List.filterMap_cons, List.filterMap_nil,
            List.mem_singleton] at hmem
          have hty := congrArg Conditions.type hmem
          unfold decided at hty
          split at hty
          · cases hty
          · split at hty <;> cases hty
      · exfalso
        have happ : applyErr env = some (some ae) := by simp [applyErr, hrun, herr]
        rw [(Reconcile_of_apply_error env ae hget happ).1] at hmem
        simp [getAvailableConditions, getDegradedConditions] at hmem
    · exfalso
      simp only [Reconcile, hget] at hmem
      split at hmem <;> simp [written] at hmem
  · rw [(hfwd h).1]
    simp

/-- Witness for C3, amended: a pass in which every kind is ready. -/
theorem Reconcile_available_iff_witness :
    written (Reconcile envAllReady).trace
        = [getAvailableConditions, getAvailableConditions] ∧
      (Reconcile envAllReady).outcome = .returned {} none :=
  (Reconcile_available_iff envAllReady).2
    ⟨rfl, by decide, fun k => by cases k <;> rfl⟩

/-- C3 as worded fails in its converse: Available is written although the
role snapshot has `isProgressing` set. -/
theorem Reconcile_available_counterexample :
    getAvailableConditions ∈ written (Reconcile envProgressingRole).trace ∧
      healthy (envProgressingRole.conditions .Role) = false ∧
      (envProgressingRole.conditions .Role).1.isProgressing = true := by
  decide

/-- C4: when the fetch of the instance fails with a not-found error,
`Reconcile` returns `Requeue = false` and a nil error, and the fetch is the
only call it makes: no apply, no evaluation, no status write. -/
theorem Reconcile_not_found (env : Env) (e : K8sError)
    (hget : env.getErr = some e) (hnf : IsNotFound (some e) = true) :
    Reconcile env
      = { trace := [.get], outcome := .returned { Requeue := false } none } := by
  simp [Reconcile, hget, hnf]

/-- Witness for C4. -/
theorem Reconcile_not_found_witness :
    Reconcile envNotFound
      = { trace := [.get], outcome := .returned { Requeue := false } none } :=
  Reconcile_not_found envNotFound { msg := "not found", notFound := true } rfl rfl

/-- C5: when `applyComponents` returns the error `e`, `Reconcile` writes one
Degraded condition whose message is the text of `e`, evaluates no kind, and
returns a non-nil error: the error of the status write if there is one, `e`
otherwise. -/
theorem Reconcile_apply_error (env : Env) (e : K8sError)
    (hget : env.getErr = none) (happ : applyErr env = some (some e)) :
    written (Reconcile env).trace = [getDegradedConditions "Degraded" e.msg] ∧
      evaluated (Reconcile env).trace = [] ∧
      (Reconcile env).outcome
        = .returned {} (some
            (match env.updateStatus 0 (getDegradedConditions "Degraded" e.msg) with
              | some w => w
              | none => e)) := by
  exact Reconcile_of_apply_error env e hget happ

/-- Witness for C5: the second component fails to apply. -/
theorem Reconcile_apply_error_witness :
    written (Reconcile envApplyFails).trace
        = [getDegradedConditions "Degraded" "create failed"] ∧
      evaluated (Reconcile envApplyFails).trace = [] ∧
      (Reconcile envApplyFails).outcome
        = .returned {} (some { msg := "create failed", notFound := false }) :=
  Reconcile_apply_error envApplyFails { msg := "create failed", notFound := false }
    rfl (by decide)

/-- C6: on the all-healthy path a failed write of the Available condition is
not handed to the host: both writes fail and `Reconcile` returns a nil
error. -/
theorem Reconcile_swallows_write_error :
    written (Reconcile envWriteFails).trace
        = [getAvailableConditions, getAvailableConditions] ∧
      envWriteFails.updateStatus 0 getAvailableConditions
        = some { msg := "the object has been modified", notFound := false } ∧
      envWriteFails.updateStatus 1 getAvailableConditions
        = some { msg := "the object has been modified", notFound := false } ∧
      (Reconcile envWriteFails).outcome = .returned {} none := by
  decide

/-! ### Lemmas about the pattern and the loop of `addResourcesControls` -/

theorem starLoop_some (p : Char → Bool) (k : Option Char → List Char → Option (List Char))
    (prev : Option Char) (cs m : List Char) (h : starLoop p k prev cs = some m) :
    ∃ pre prev1 cs1 m1, m = pre ++ m1 ∧ k prev1 cs1 = some m1 := by
  induction cs generalizing prev m with
  | nil => exact ⟨[], prev, [], m, rfl, by simpa [starLoop] using h⟩
  | cons c cs ih =>
    unfold starLoop at h
    split at h
    · split at h
      · rename_i m0 hm0
        obtain ⟨pre, prev1, cs1, m1, hm, hk⟩ := ih _ _ hm0
        cases h
        exact ⟨c :: pre, prev1, cs1, m1, by simp [hm], hk⟩
      · exact ⟨[], prev, c :: cs, m, rfl, h⟩
    · exact ⟨[], prev, c :: cs, m, rfl, h⟩

theorem matchItems_mem (items : List Item) (prev : Option Char) (cs m : List Char)
    (c : Char) (h : matchItems items prev cs = some m) (hc : Item.char c ∈ items) :
    c ∈ m := by
  induction items generalizing prev cs m with
  | nil => cases hc
  | cons it is ih =>
    cases it with
    | wordBoundary =>
      simp only [matchItems] at h
      split at h
      · exact ih _ _ _ h (by simpa using hc)
      · cases h
    | notWordBoundary =>
      simp only [matchItems] at h
      split at h
      · cases h
      · exact ih _ _ _ h (by simpa using hc)
    | char d =>
      cases cs with
      | nil => simp [matchItems] at h
      | cons x xs =>
        simp only [matchItems] at h
        split at h
        · rename_i hdx
          rcases hr : matchItems is (some x) xs with _ | m0
          · simp [hr] at h
          · simp only [hr, Option.map_some', Option.some.injEq] at h
            subst h
            rcases List.mem_cons.mp hc with heq | hin
            · have : c = d := by cases heq; rfl
              have hdx2 : d = x := by simpa using hdx
              simp [this, hdx2]
            · exact List.mem_cons_of_mem _ (ih _ _ _ hr hin)
        · cases h
    | wordStar =>
      simp only [matchItems] at h
      obtain ⟨pre, prev1, cs1, m1, hm, hk⟩ := starLoop_some _ _ _ _ _ h
      rw [hm]
      exact List.mem_append_right _ (ih _ _ _ hk (by simpa using hc))
    | anyStar =>
      simp only [matchItems] at h
      obtain ⟨pre, prev1, cs1, m1, hm, hk⟩ := starLoop_some _ _ _ _ _ h
      rw [hm]
      exact List.mem_append_right _ (ih _ _ _ hk (by simpa using hc))

theorem findFrom_some (items : List Item) (prev : Option Char) (cs m : List Char)
    (h : findFrom items prev cs = some m) :
    ∃ prev1 cs1, matchItems items prev1 cs1 = some m := by
  induction cs generalizing prev with
  | nil => exact ⟨prev, [], by simpa [findFrom] using h⟩
  | cons c cs ih =>
    unfold findFrom at h
    split at h
    · rename_i m0 hm0
      cases h
      exact ⟨_, _, hm0⟩
    · exact ih _ h

theorem splitChars_length (sep : Char) (l : List Char) (h : sep ∈ l) :
    2 ≤ (splitChars sep l).length := by
  have hpos : ∀ l : List Char, 1 ≤ (splitChars sep l).length := by
    intro l
    induction l with
    | nil => simp [splitChars]
    | cons c cs ih =>
      unfold splitChars
      split
      · simp
      · split
        · simp
        · simp
  induction l with
  | nil => cases h
  | cons c cs ih =>
    unfold splitChars
    split
    · have := hpos cs
      simp only [List.length_cons]
      omega
    · rename_i hne
      have hin : sep ∈ cs := by
        rcases List.mem_cons.mp h with heq | hin
        · exact absurd (by simp [heq]) hne
        · exact hin
      have := ih hin
      split
      · rename_i hnil
        rw [hnil] at this
        simp at this
      · rename_i p ps hps
        rw [hps] at this
        simpa using this

theorem FindString_colon (s : String) (h : FindString s ≠ "") :
    ':' ∈ (FindString s).data := by
  unfold FindString at h ⊢
  split at h
  · rename_i m hm
    obtain ⟨prev1, cs1, hmatch⟩ := findFrom_some _ _ _ _ hm
    exact matchItems_mem _ _ _ _ ':' hmatch (by simp [kindPattern])
  · exact absurd rfl h

theorem Split_second (s : String) (h : FindString s ≠ "") :
    ∃ s1, (Split (FindString s)).get? 1 = some s1 := by
  have hlen := splitChars_length ':' _ (FindString_colon s h)
  have : 1 < (Split (FindString s)).length := by
    simp only [Split, List.length_map]
    omega
  exact ⟨_, List.get?_eq_get this⟩

theorem addResourcesLoop_cons (decode : String → ControlFn → Option String)
    (m : String) (ms : List String) (res : Resources) (ctrl : List ControlFn)
    (s1 : String) (h : (Split (FindString m)).get? 1 = some s1) :
    addResourcesLoop decode (m :: ms) res ctrl =
      match controlOf (TrimSpace s1) with
      | none => addResourcesLoop decode ms res ctrl
      | some f =>
        match decode m f with
        | some err => .panicked (.decodeError err)
        | none => addResourcesLoop decode ms (res.store f m) (ctrl ++ [f]) := by
  rw [addResourcesLoop]
  simp only [h]
  generalize TrimSpace s1 = kind
  by_cases h0 : kind = "Namespace"
  · subst h0
    rfl
  rw [if_neg h0]
  by_cases h1 : kind = "ServiceAccount"
  · subst h1
    rfl
  rw [if_neg h1]
  by_cases h2 : kind = "ClusterRole"
  · subst h2
    rfl
  rw [if_neg h2]
  by_cases h3 : kind = "ClusterRoleBinding"
  · subst h3
    rfl
  rw [if_neg h3]
  by_cases h4 : kind = "Role"
  · subst h4
    rfl
  rw [if_neg h4]
  by_cases h5 : kind = "RoleBinding"
  · subst h5
    rfl
  rw [if_neg h5]
  by_cases h6 : kind = "ConfigMap"
  · subst h6
    rfl
  rw [if_neg h6]
  by_cases h7 : kind = "DaemonSet"
  · subst h7
    rfl
  rw [if_neg h7]
  by_cases h8 : kind = "Deployment"
  · subst h8
    rfl
  rw [if_neg h8]
  by_cases h9 : kind = "Service"
  · subst h9
    rfl
  rw [if_neg h9]
  by_cases h10 : kind = "SecurityContextConstraints"
  · subst h10
    rfl
  rw [if_neg h10]
  have hnone : controlOf kind = none := by
    simp [controlOf, recognizedKinds, List.find?, h0, h1, h2, h3, h4, h5, h6, h7, h8, h9, h10]
  rw [hnone]

theorem addResourcesLoop_kindless (decode : String → ControlFn → Option String)
    (ms : List String) (res : Resources) (ctrl : List ControlFn)
    (h : ∃ m ∈ ms, FindString m = "") :
    ∃ p, addResourcesLoop decode ms res ctrl = .panicked p := by
  induction ms generalizing res ctrl with
  | nil => simp at h
  | cons m ms ih =>
    by_cases hm : FindString m = ""
    · refine ⟨.indexOutOfRange 1 1, ?_⟩
      rw [addResourcesLoop]
      simp only [hm]
      rfl
    · have hrest : ∃ m1 ∈ ms, FindString m1 = "" := by
        obtain ⟨m1, hmem, hm1⟩ := h
        rcases List.mem_cons.mp hmem with heq | hin
        · exact absurd (heq ▸ hm1) hm
        · exact ⟨m1, hin, hm1⟩
      obtain ⟨s1, hs1⟩ := Split_second m hm
      rw [addResourcesLoop_cons decode m ms res ctrl s1 hs1]
      rcases controlOf (TrimSpace s1) with _ | f
      · exact ih _ _ hrest
      · simp only []
        rcases decode m f with _ | err
        · exact ih _ _ hrest
        · exact ⟨_, rfl⟩

/-! ### Claims about the delete helpers, the manifests and the event filter -/

/-- What each of the eight delete helpers does, by the outcome of its lookup: a
not-found lookup gives nil with the store untouched and no delete call; any
other lookup error is returned unchanged, again without a delete call; an
object that was found is handed to `Delete`, whose error is what the helper
returns. -/
theorem deleteOf_cases {σ : Type} (r : Client σ) (s : σ) (k : OwnedKind)
    (ns name : String) :
    (IsNotFound (r.Get s k { Namespace := ns, Name := name }).2 = true →
        (deleteOf k r s ns name).err = none ∧
        (deleteOf k r s ns name).state = s ∧
        (deleteOf k r s ns name).calls = [.get k { Namespace := ns, Name := name }] ∧
        (deleteOf k r (deleteOf k r s ns name).state ns name).err = none ∧
        (deleteOf k r (deleteOf k r s ns name).state ns name).calls
          = [.get k { Namespace := ns, Name := name }]) ∧
      (∀ e : K8sError, (r.Get s k { Namespace := ns, Name := name }).2 = some e →
        e.notFound = false →
        (deleteOf k r s ns name).err = some e ∧
        (deleteOf k r s ns name).state = s ∧
        (deleteOf k r s ns name).calls = [.get k { Namespace := ns, Name := name }]) ∧
      ((r.Get s k { Namespace := ns, Name := name }).2 = none →
        (deleteOf k r s ns name).err
          = (r.Delete s (r.Get s k { Namespace := ns, Name := name }).1).2 ∧
        (deleteOf k r s ns name).state
          = (r.Delete s (r.Get s k { Namespace := ns, Name := name }).1).1 ∧
        (deleteOf k r s ns name).calls
          = [.get k { Namespace := ns, Name := name },
             .delete (r.Get s k { Namespace := ns, Name := name }).1]) := by
  rcases hg : r.Get s k { Namespace := ns, Name := name } with ⟨obj, err⟩
  cases k <;>
    simp only [deleteOf, deleteServiceAccount, deleteConfigMap, deleteDaemonSet,
      deleteService, deleteRole, deleteRoleBinding, deleteClusterRole,
      deleteClusterRoleBinding, getServiceAccount, getConfigMap, getDaemonSet, getService,
      getRole, getRoleBinding, getClusterRole, getClusterRoleBinding, hg] <;>
    (rcases err with _ | e
     · simp [IsNotFound]
     · by_cases hnf : e.notFound = true
       · simp [IsNotFound, hnf, hg]
       · simp [IsNotFound, hnf])

/-- C7: when the lookup finds the object and `Delete` then answers with a
not-found error, the delete helper of every kind returns that error: a
not-found outcome of the delete itself is not turned into success. -/
theorem delete_returns_not_found {σ : Type} (r : Client σ) (s : σ) (k : OwnedKind)
    (ns name : String) (e : K8sError)
    (hget : (r.Get s k { Namespace := ns, Name := name }).2 = none)
    (hdel : (r.Delete s (r.Get s k { Namespace := ns, Name := name }).1).2 = some e)
    (hnf : e.notFound = true) :
    (deleteOf k r s ns name).err = some e ∧
      IsNotFound (deleteOf k r s ns name).err = true ∧
      (deleteOf k r s ns name).calls
        = [.get k { Namespace := ns, Name := name },
           .delete (r.Get s k { Namespace := ns, Name := name }).1] := by
  have h := (deleteOf_cases r s k ns name).2.2 hget
  refine ⟨by rw [h.1, hdel], by rw [h.1, hdel]; exact hnf, h.2.2⟩

/-- Witness for C7: on a stale client the service is found, `Delete` answers
not-found, and `deleteService` returns that error, the first time and again
on the store the first run leaves behind. -/
theorem delete_returns_not_found_witness :
    (deleteService staleClient () "openshift-nfd" "nfd-master").err = some notFoundError ∧
      (deleteService staleClient
          (deleteService staleClient () "openshift-nfd" "nfd-master").state
          "openshift-nfd" "nfd-master").err = some notFoundError :=
  ⟨(delete_returns_not_found staleClient () .Service "openshift-nfd" "nfd-master"
      notFoundError rfl rfl rfl).1,
    (delete_returns_not_found staleClient
      (deleteService staleClient () "openshift-nfd" "nfd-master").state .Service
      "openshift-nfd" "nfd-master" notFoundError rfl rfl rfl).1⟩

/-- C8: a manifest list with a document in which the kind pattern finds no
match makes `addResourcesControls` panic, whatever the decoder does; nothing is
returned. -/
theorem addResourcesControls_kindless_panics
    (decode : String → ControlFn → Option String) (manifests : List String)
    (h : ∃ m ∈ manifests, FindString m = "") :
    ∃ p, addResourcesControls decode manifests = .panicked p :=
  addResourcesLoop_kindless decode manifests {} [] h

/-- Witness for C8: after a namespace manifest, a document without a kind
makes the index `slce[1]` run past the one piece of the split. -/
theorem addResourcesControls_kindless_panics_witness :
    FindString kindlessManifest = "" ∧
      addResourcesControls decodeAll [namespaceManifest, kindlessManifest]
        = .panicked (.indexOutOfRange 1 1) ∧
      ∃ p, addResourcesControls decodeAll [namespaceManifest, kindlessManifest]
        = .panicked p :=
  ⟨by decide, by decide,
    addResourcesControls_kindless_panics decodeAll [namespaceManifest, kindlessManifest]
      ⟨kindlessManifest, by simp, by decide⟩⟩

/-- C9: a role binding whose `subjects` come before its `kind` line is a
document of kind RoleBinding, yet `addResourcesControls` takes the first match
of the pattern, switches on `ServiceAccount` and, unless the decoder objects,
returns the service-account function for it; and a namespace manifest whose
`kind` key is quoted makes it panic at `slce[1]`. -/
theorem addResourcesControls_misdispatch :
    topLevelKind roleBindingManifest = some "RoleBinding" ∧
      controlOf "RoleBinding" = some .RoleBinding ∧
      FindString roleBindingManifest = "kind: ServiceAccount" ∧
      (∀ decode : String → ControlFn → Option String,
        addResourcesControls decode [roleBindingManifest]
          = match decode roleBindingManifest .ServiceAccount with
            | some err => .panicked (.decodeError err)
            | none =>
              .ok { ServiceAccount := some roleBindingManifest } [.ServiceAccount]) ∧
      (∀ decode : String → ControlFn → Option String,
        addResourcesControls decode [quotedKindManifest]
          = .panicked (.indexOutOfRange 1 1)) := by
  refine ⟨by decide, by decide, by decide, fun decode => ?_, fun decode => ?_⟩
  · have hs : (Split (FindString roleBindingManifest)).get? 1 = some " ServiceAccount" := by
      decide
    have hc : controlOf (TrimSpace " ServiceAccount") = some .ServiceAccount := by decide
    rw [addResourcesControls, addResourcesLoop_cons decode _ [] _ _ _ hs, hc]
    simp only []
    cases decode roleBindingManifest .ServiceAccount <;> rfl
  · have hs : (Split (FindString quotedKindManifest)).get? 1 = none := by decide
    rw [addResourcesControls, addResourcesLoop]
    simp only [hs]
    decide

/-- C10: `UpdateFunc` lets an update event through exactly when its old or
its new object is nil; an event with both objects present is filtered out. -/
theorem UpdateFunc_inverted :
    (∀ e : UpdateEvent, UpdateFunc e = true ↔ (e.ObjectOld = none ∨ e.ObjectNew = none)) ∧
      UpdateFunc eventBothPresent = false ∧
      UpdateFunc eventNoOld = true := by
  refine ⟨fun e => ?_, by decide, by decide⟩
  rcases e with ⟨o, n⟩
  cases o <;> cases n <;> simp [UpdateFunc, validateUpdateEvent]


/-! ### Lemmas about the apply loop -/

theorem NFD.step_components (n : NFD) : n.step.1.components = n.components := by
  unfold NFD.step
  split <;> rfl

theorem NFD.step_idx_ge (n : NFD) : n.idx ≤ n.step.1.idx := by
  unfold NFD.step
  split <;> simp

theorem NFD.step_idx_le (n : NFD) (h : n.idx ≤ n.components.length) :
    n.step.1.idx ≤ n.components.length := by
  unfold NFD.step
  split
  · exact h
  · exact h
  · rename_i hget
    have hlt : n.idx < n.components.length := by
      rcases Nat.lt_or_ge n.idx n.components.length with h1 | h1
      · exact h1
      · rw [List.get?_eq_none.mpr h1] at hget; cases hget
    exact hlt

theorem applyLoop_all_succeed (comps : List (Option K8sError))
    (hall : ∀ c ∈ comps, c = none) (fuel a calls : Nat)
    (ha : a < comps.length) (hfuel : comps.length - a ≤ fuel) :
    applyLoop fuel { components := comps, idx := a } calls
      = some { nfd := { components := comps, idx := comps.length },
               steps := calls + (comps.length - a), result := some {}, err := none } := by
  induction fuel generalizing a calls with
  | zero => omega
  | succ fuel ih =>
    have hget : comps.get? a = some none := by
      rw [List.get?_eq_get ha]
      exact congrArg some (hall _ (List.get_mem _ _ _))
    unfold applyLoop NFD.step
    simp only [hget]
    by_cases hlast : a + 1 = comps.length
    · have h1 : comps.length - a = 1 := by omega
      simp [NFD.last, hlast, h1]
    · have hne : (({ components := comps, idx := a + 1 } : NFD).last) = false := by
        simp [NFD.last, hlast]
      simp only [hne]
      rw [ih (a + 1) (calls + 1) (by omega) (by omega)]
      have h2 : calls + 1 + (comps.length - (a + 1)) = calls + (comps.length - a) := by omega
      simp [h2]

theorem applyComponents_all_succeed (comps : List (Option K8sError))
    (hne : comps ≠ []) (hall : ∀ c ∈ comps, c = none) :
    applyComponents (NFD.init comps)
      = some { nfd := { components := comps, idx := comps.length },
               steps := comps.length, result := some {}, err := none } := by
  have hpos : 0 < comps.length := List.length_pos.mpr hne
  have h := applyLoop_all_succeed comps hall (comps.length + 1 - 0) 0 0 hpos (by omega)
  simpa [applyComponents, NFD.init] using h

theorem applyLoop_fails_at (comps : List (Option K8sError)) (i : Nat) (e : K8sError)
    (hfail : comps.get? i = some (some e))
    (hok : ∀ j, j < i → comps.get? j = some none) (fuel a calls : Nat)
    (ha : a ≤ i) (hfuel : i - a + 1 ≤ fuel) :
    applyLoop fuel { components := comps, idx := a } calls
      = some { nfd := { components := comps, idx := i },
               steps := calls + (i - a) + 1, result := some {}, err := some e } := by
  have hilt : i < comps.length := by
    rcases Nat.lt_or_ge i comps.length with h1 | h1
    · exact h1
    · rw [List.get?_eq_none.mpr h1] at hfail; cases hfail
  induction fuel generalizing a calls with
  | zero => omega
  | succ fuel ih =>
    unfold applyLoop NFD.step
    by_cases hai : a = i
    · subst hai
      simp only [hfail]
      simp
    · have hlt : a < i := by omega
      simp only [hok a hlt]
      have hne : (({ components := comps, idx := a + 1 } : NFD).last) = false := by
        simp only [NFD.last, beq_eq_false_iff_ne, ne_eq]
        omega
      simp only [hne]
      rw [ih (a + 1) (calls + 1) (by omega) (by omega)]
      have h2 : calls + 1 + (i - (a + 1)) + 1 = calls + (i - a) + 1 := by omega
      simp [h2]

/-- C11: on the empty component list `last()` holds from the start, yet
`applyComponents` calls `step` once before it tests `last()`. On a list of
`N ≥ 1` components that all apply it calls `step` exactly `N` times and ends
with the cursor at `N` and no error; a call of `step` never lowers the cursor
and never takes it past the number of components. -/
theorem applyComponents_step_count :
    ((NFD.init []).last = true ∧
      applyComponents (NFD.init [])
        = some { nfd := NFD.init [], steps := 1, result := some {}, err := none }) ∧
      (∀ comps : List (Option K8sError), comps ≠ [] → (∀ c ∈ comps, c = none) →
        applyComponents (NFD.init comps)
          = some { nfd := { components := comps, idx := comps.length },
                   steps := comps.length, result := some {}, err := none }) ∧
      (∀ n : NFD, n.idx ≤ n.step.1.idx ∧
        (n.idx ≤ n.components.length → n.step.1.idx ≤ n.components.length)) :=
  ⟨by decide, applyComponents_all_succeed,
    fun n => ⟨NFD.step_idx_ge n, NFD.step_idx_le n⟩⟩

/-- Witness for C11: two components that both apply. -/
theorem applyComponents_step_count_witness :
    applyComponents (NFD.init [none, none])
      = some { nfd := { components := [none, none], idx := 2 },
               steps := 2, result := some {}, err := none } :=
  applyComponents_step_count.2.1 [none, none] (by decide)
    (by intro c hc; simp at hc; exact hc)

/-- C12: when the steps before index `i` succeed and step `i` fails with `e`,
`applyComponents` from cursor 0 returns `e` after `i + 1` calls of `step` with
the cursor left at `i`; a second run from cursor 0 over the components it
leaves behind ends the same way. -/
theorem applyComponents_halts_at (comps : List (Option K8sError)) (i : Nat) (e : K8sError)
    (hfail : comps.get? i = some (some e))
    (hok : ∀ j, j < i → comps.get? j = some none) :
    applyComponents (NFD.init comps)
        = some { nfd := { components := comps, idx := i },
                 steps := i + 1, result := some {}, err := some e } ∧
      ∀ run, applyComponents (NFD.init comps) = some run →
        applyComponents (NFD.init run.nfd.components) = some run := by
  have hilt : i < comps.length := by
    rcases Nat.lt_or_ge i comps.length with h1 | h1
    · exact h1
    · rw [List.get?_eq_none.mpr h1] at hfail; cases hfail
  have h := applyLoop_fails_at comps i e hfail hok (comps.length + 1 - 0) 0 0
    (Nat.zero_le _) (by omega)
  have h1 : applyComponents (NFD.init comps)
      = some { nfd := { components := comps, idx := i },
               steps := i + 1, result := some {}, err := some e } := by
    simpa [applyComponents, NFD.init] using h
  refine ⟨h1, fun run hrun => ?_⟩
  rw [h1] at hrun
  cases hrun
  exact h1

/-- Witness for C12: the second of three components fails. -/
theorem applyComponents_halts_at_witness :
    applyComponents (NFD.init failsAtOne)
      = some { nfd := { components := failsAtOne, idx := 1 },
               steps := 2, result := some {},
               err := some { msg := "create failed", notFound := false } } :=
  (applyComponents_halts_at failsAtOne 1 { msg := "create failed", notFound := false } rfl
    (by intro j hj; interval_cases j; rfl)).1

/-! ### Lemmas about the daemon-set blocks -/

theorem Reconcile_withProgressing (env : Env) (f : Kind → Bool) :
    Reconcile (env.withProgressing f) = Reconcile env := by
  simp only [Reconcile, statusPhase, checkDegraded, checkDaemonSet, Env.withProgressing,
    Kind.isDaemonSet, updateDegradedCondition, updateProgressingCondition, writeAvailable]
  rfl

/-- C13: when the evaluation reaches a daemon set whose snapshot has
`isProgressing` set, Progressing is written if the snapshot carries an error,
also with `isDegraded` set, and the pass panics if it carries none; a Degraded
condition comes from a daemon set only with `isProgressing` false and
`isDegraded` set or an error returned; and `isProgressing` of the seven
existence-only kinds has no influence on the pass. -/
theorem daemonSet_progressing_precedence (env : Env) (k : Kind)
    (hk : k.isDaemonSet = true) (hget : env.getErr = none)
    (happ : applyErr env = some none)
    (hfirst : ∀ k1 : Kind, k1.pos < k.pos → triggers k1 (env.conditions k1) = false) :
    (∀ e : K8sError, (env.conditions k).1.isProgressing = true →
        (env.conditions k).2 = some e →
        written (Reconcile env).trace = [getProgressingConditions e.msg e.msg]) ∧
      ((env.conditions k).1.isProgressing = true → (env.conditions k).2 = none →
        (Reconcile env).outcome = .panicked ∧ written (Reconcile env).trace = []) ∧
      (triggers k (env.conditions k) = true →
        ∀ c ∈ written (Reconcile env).trace, c.type = .Degraded →
          (env.conditions k).1.isProgressing = false ∧
            ((env.conditions k).1.isDegraded = true ∨ (env.conditions k).2.isSome = true)) ∧
      (∀ f : Kind → Bool, Reconcile (env.withProgressing f) = Reconcile env) := by
  obtain ⟨tr, _, hwr, hrec⟩ := Reconcile_applied env hget happ
  refine ⟨fun e hp he => ?_, fun hp he => ?_, fun ht c hc hty => ?_,
    fun f => Reconcile_withProgressing env f⟩
  · rw [hrec, statusPhase_first env _ tr k e hfirst he]
    simp only [written_append, hwr, List.nil_append, written_map_evaluate]
    simp [written, decided, hk, hp]
  · have ht : triggers k (env.conditions k) = true := by simp [triggers, hk, hp]
    rw [hrec, statusPhase_panic env _ tr k hfirst ht he]
    refine ⟨rfl, ?_⟩
    simp only [written_append, hwr, List.nil_append, written_map_evaluate]
  · rcases he : (env.conditions k).2 with _ | e
    · rw [hrec, statusPhase_panic env _ tr k hfirst ht he] at hc
      simp only [written_append, hwr, List.nil_append, written_map_evaluate] at hc
      cases hc
    · rw [hrec, statusPhase_first env _ tr k e hfirst he] at hc
      simp only [written_append, hwr, List.nil_append, written_map_evaluate] at hc
      simp only [written, List.filterMap_cons, List.filterMap_nil,
        List.mem_singleton] at hc
      subst hc
      refine ⟨?_, Or.inr rfl⟩
      by_contra hp
      have hp1 : (env.conditions k).1.isProgressing = true := by simpa using hp
      simp [decided, hk, hp1, getProgressingConditions] at hty

/-- Witness for C13: with both flags set on the worker daemon set, Progressing
is written when the snapshot carries an error, and the pass panics when it
carries none. -/
theorem daemonSet_progressing_precedence_witness :
    written (Reconcile envWorkerBothFlags).trace
        = [getProgressingConditions "number of ready nodes is less than scheduled"
            "number of ready nodes is less than scheduled"] ∧
      (Reconcile envWorkerProgressingNoError).outcome = .panicked ∧
      written (Reconcile envWorkerProgressingNoError).trace = [] :=
  ⟨(daemonSet_progressing_precedence envWorkerBothFlags .WorkerDaemonSet rfl rfl (by decide)
      (by intro k1 h1; cases k1 <;> first | rfl | exact absurd h1 (by decide))).1
      { msg := "number of ready nodes is less than scheduled", notFound := false } rfl rfl,
    (daemonSet_progressing_precedence envWorkerProgressingNoError .WorkerDaemonSet rfl rfl
      (by decide)
      (by intro k1 h1; cases k1 <;> first | rfl | exact absurd h1 (by decide))).2.1 rfl rfl⟩

end Controllers
